import Mathlib

/-!
Shallow embedding of the swanky_persist persistence-orchestration layer.

The layer combines a document store (MongoDB, `src/db/mongo_db.rs`) with a
key-value cache (Redis, `src/cache/redis_cache.rs`) under a cache-aside
discipline orchestrated by `DataServices` (`src/data_services.rs`).

Modelling choices:
- A record type `T` carries its `Persistable` metadata (collection name,
  id field name, per-instance id extraction) as a `PersistSpec T` value and
  its `Cacheable` metadata (namespace path, per-instance cache id, expiry)
  as a `CacheSpec T` value, mirroring the two traits.
- The serde contract of `T` (serde_json::to_vec / from_slice) is a
  `SerdeSpec T` value: serialization to bytes and fallible deserialization.
- One Mongo collection is a `List T`; the Redis keyspace is an association
  list from key strings to (bytes, ttl) pairs.  Network failures of the
  underlying clients are not modelled; the errors the code itself
  produces (IdExists, GeneralError from serde or unexpected responses)
  are modelled exactly.
- Every operation returns its result together with the post-state of the
  external systems, so frame conditions ("the cache is unchanged") are
  expressible even on the error path.
-/

/-- Mirror of `DaoError` in `src/dao_error.rs`.  Payloads of wrapped
external client errors are dropped; the string payloads the code itself
constructs are kept. -/
inductive DaoError where
  | ServiceError (msg : String)
  | DatabaseError
  | MongoDataError
  | CacheError
  | IdExists (id : String)
  | NotFound
  | GeneralError
deriving DecidableEq, Repr

deriving instance DecidableEq for Except

/-- Mirror of `serde_json::Error` as it appears at this layer: an opaque
error value carrying its underlying cause. -/
structure SerdeJsonError where
  cause : String
deriving DecidableEq, Repr

/-- Mirror of `impl From<serde_json::Error> for DaoError` in
`src/dao_error.rs` lines 26-30: the source error is discarded and the
result is always `GeneralError`. -/
def daoFromSerde (_e : SerdeJsonError) : DaoError :=
  DaoError.GeneralError

/-- Mirror of the `Persistable` trait (swanky_persist_persistable). -/
structure PersistSpec (T : Type) where
  collection_name : String
  collection_id_field : String
  collection_id : T → String

/-- Mirror of the `Cacheable` trait (swanky_persist_cacheable). -/
structure CacheSpec (T : Type) where
  cache_path : String
  cache_id : T → String
  cache_expiry : Nat

/-- The serde contract of a record type: `ser` models
`serde_json::to_vec` (total here), `de` models `serde_json::from_slice`
(fallible). -/
structure SerdeSpec (T : Type) where
  ser : T → List Nat
  de : List Nat → Except SerdeJsonError T

/-- Mirror of `redis::Value` as consumed by `Cache::fetch`: the `Nil`
sentinel, a `Data` payload, and every other response shape collapsed into
one constructor (the code treats them all alike with a catch-all arm). -/
inductive RedisValue where
  | nil
  | data (b : List Nat)
  | other
deriving DecidableEq, Repr

section Model

variable {T K : Type}

/-- Update the first element of a list satisfying `p` (mongo `update_one`
touches at most one matching document). -/
def setFirst (p : T → Bool) (f : T → T) : List T → List T
  | [] => []
  | x :: xs => if p x then f x :: xs else x :: setFirst p f xs

/-- Remove the first element of a list satisfying `p` (mongo `delete_one`
removes at most one matching document). -/
def removeFirst (p : T → Bool) : List T → List T
  | [] => []
  | x :: xs => if p x then xs else x :: removeFirst p xs

/-- Mirror of `DB::fetch_by_id` (`src/db/mongo_db.rs` lines 105-143):
`find_one` with the filter `{collection_id_field: id}` returns the first
document whose id field equals `id`, or `None`.  Per the `Persistable`
contract the id field of a record `r` holds `collection_id r`. -/
def dbFetchById (P : PersistSpec T) (db : List T) (id : String) : Option T :=
  db.find? (fun r => P.collection_id r == id)

/-- Mirror of `DB::add` (`src/db/mongo_db.rs` lines 39-66): first
`fetch_by_id` on the new value's id; if a record exists, fail with
`IdExists` and do not insert; otherwise `insert_one` the value and return
it unchanged. -/
def dbAdd (P : PersistSpec T) (db : List T) (v : T) :
    Except DaoError T × List T :=
  match dbFetchById P db (P.collection_id v) with
  | some _ => (Except.error (DaoError.IdExists (P.collection_id v)), db)
  | none => (Except.ok v, db ++ [v])

/-- Mirror of `DB::update` (`src/db/mongo_db.rs` lines 150-172):
`update_one` applies a `$set` of one field to the first document matching
`{collection_id_field: id}`, then the full record is re-read with
`fetch_by_id id`.  The field-level `$set` followed by BSON round-trip is
abstracted as a caller-supplied function `setF`. -/
def dbUpdateStore (P : PersistSpec T) (db : List T) (id key : String)
    (value : K) (setF : T → String → K → T) : List T :=
  setFirst (fun r => P.collection_id r == id) (fun r => setF r key value) db

/-- The full `DB::update` method: the `update_one` effect followed by the
re-read of the record by the same id. -/
def dbUpdate (P : PersistSpec T) (db : List T) (id key : String) (value : K)
    (setF : T → String → K → T) : Option T × List T :=
  (dbFetchById P (dbUpdateStore P db id key value setF) id,
    dbUpdateStore P db id key value setF)

/-- Mirror of `DB::delete` (`src/db/mongo_db.rs` lines 174-193):
`delete_one` with the filter `{collection_id_field: id}`; the deleted
count is ignored, the operation returns unit whether or not anything was
removed. -/
def dbDelete (P : PersistSpec T) (db : List T) (id : String) : List T :=
  removeFirst (fun r => P.collection_id r == id) db

/-- Cache state: association list from Redis key to (bytes, ttl). -/
abbrev CacheState : Type := List (String × List Nat × Nat)

/-- Mirror of the key computation `format!("{}:{}", T::cache_path(), id)`
used by all three `Cache` methods: plain concatenation with a colon, no
escaping. -/
def cacheKey (C : CacheSpec T) (id : String) : String :=
  C.cache_path ++ ":" ++ id

/-- Redis GET on the modelled keyspace. -/
def cacheLookup (c : CacheState) (k : String) : Option (List Nat × Nat) :=
  (c.find? (fun e => e.1 == k)).map (fun e => e.2)

/-- Redis atomic SET + EXPIRE: the key is bound to the value and the ttl
in one step, replacing any previous binding. -/
def cacheSet (c : CacheState) (k : String) (b : List Nat) (ttl : Nat) :
    CacheState :=
  (k, b, ttl) :: c.filter (fun e => e.1 != k)

/-- Mirror of `Cache::put` (`src/cache/redis_cache.rs` lines 32-47):
serialize the value, then atomically set key `"{cache_path}:{cache_id}"`
to the bytes with expiry `cache_expiry`. -/
def cachePut (C : CacheSpec T) (S : SerdeSpec T) (c : CacheState) (v : T) :
    CacheState :=
  cacheSet c (cacheKey C (C.cache_id v)) (S.ser v) C.cache_expiry

/-- The raw Redis response for a key in the modelled keyspace: `Data` when
bound, `Nil` when absent. -/
def cacheResponse (c : CacheState) (k : String) : RedisValue :=
  match cacheLookup c k with
  | some bt => RedisValue.data bt.1
  | none => RedisValue.nil

/-- Mirror of the response handling in `Cache::fetch`
(`src/cache/redis_cache.rs` lines 57-68): `Nil` is a miss (`Ok(None)`),
`Data` is deserialized (a serde failure becomes `GeneralError` through the
`From` impl), any other shape is `GeneralError`. -/
def cacheFetchRaw (S : SerdeSpec T) : RedisValue → Except DaoError (Option T)
  | RedisValue.nil => Except.ok none
  | RedisValue.data b =>
      match S.de b with
      | Except.ok t => Except.ok (some t)
      | Except.error e => Except.error (daoFromSerde e)
  | RedisValue.other => Except.error DaoError.GeneralError

/-- Mirror of `Cache::fetch` (`src/cache/redis_cache.rs` lines 49-69):
compute the key from the caller-supplied id, read it, handle the response. -/
def cacheFetch (C : CacheSpec T) (S : SerdeSpec T) (c : CacheState)
    (id : String) : Except DaoError (Option T) :=
  cacheFetchRaw S (cacheResponse c (cacheKey C id))

/-- Mirror of `Cache::delete` (`src/cache/redis_cache.rs` lines 71-80):
DEL on the computed key; absence is not an error. -/
def cacheDelete (C : CacheSpec T) (c : CacheState) (id : String) :
    CacheState :=
  c.filter (fun e => e.1 != cacheKey C id)

/-- The combined state of the two external systems held behind a
`DataServices` value: one store collection and the cache keyspace. -/
structure St (T : Type) where
  db : List T
  cache : CacheState
deriving DecidableEq, Repr

/-- Mirror of `DataServices::add_cached` (`src/data_services.rs` lines
47-62): `db.add` first, propagating its error with `?`; only on success is
the result written to the cache with `cache.put`. -/
def addCached (P : PersistSpec T) (C : CacheSpec T) (S : SerdeSpec T)
    (s : St T) (v : T) : Except DaoError T × St T :=
  match dbAdd P s.db v with
  | (Except.error e, db2) => (Except.error e, { s with db := db2 })
  | (Except.ok r, db2) => (Except.ok r, ⟨db2, cachePut C S s.cache r⟩)

/-- Mirror of `DataServices::fetch_by_id_cached` (`src/data_services.rs`
lines 87-106): cache first; on hit return it; on miss read the db by id,
and when found `cache.put` it before returning; otherwise `None`. -/
def fetchByIdCached (P : PersistSpec T) (C : CacheSpec T) (S : SerdeSpec T)
    (s : St T) (id : String) : Except DaoError (Option T) × St T :=
  match cacheFetch C S s.cache id with
  | Except.error e => (Except.error e, s)
  | Except.ok (some t) => (Except.ok (some t), s)
  | Except.ok none =>
      match dbFetchById P s.db id with
      | some t => (Except.ok (some t), { s with cache := cachePut C S s.cache t })
      | none => (Except.ok none, s)

/-- Mirror of `DataServices::update_cached` (`src/data_services.rs` lines
119-131): `db.update` first; if it returns a record, re-`put` that whole
record into the cache; otherwise return `None` without touching the
cache. -/
def updateCached (P : PersistSpec T) (C : CacheSpec T) (S : SerdeSpec T)
    (s : St T) (id key : String) (value : K) (setF : T → String → K → T) :
    Except DaoError (Option T) × St T :=
  match dbUpdate P s.db id key value setF with
  | (some r, db2) => (Except.ok (some r), ⟨db2, cachePut C S s.cache r⟩)
  | (none, db2) => (Except.ok none, { s with db := db2 })

/-- Mirror of `DataServices::delete_cached` (`src/data_services.rs` lines
143-150): `db.delete` first, then `cache.delete`. -/
def deleteCached (P : PersistSpec T) (C : CacheSpec T) (s : St T)
    (id : String) : Except DaoError Unit × St T :=
  (Except.ok (), ⟨dbDelete P s.db id, cacheDelete C s.cache id⟩)

/-- One call of a cached orchestrator operation, relating pre- and
post-states of the external systems. -/
inductive Step (P : PersistSpec T) (C : CacheSpec T) (S : SerdeSpec T) :
    St T → St T → Prop where
  | add (s : St T) (v : T) (res : Except DaoError T) (t : St T) :
      addCached P C S s v = (res, t) → Step P C S s t
  | fetch (s : St T) (id : String) (res : Except DaoError (Option T))
      (t : St T) : fetchByIdCached P C S s id = (res, t) → Step P C S s t
  | update {K : Type} (s : St T) (id key : String) (value : K)
      (setF : T → String → K → T) (res : Except DaoError (Option T))
      (t : St T) :
      updateCached P C S s id key value setF = (res, t) → Step P C S s t
  | delete (s : St T) (id : String) (res : Except DaoError Unit) (t : St T) :
      deleteCached P C s id = (res, t) → Step P C S s t

end Model

section Lemmas

variable {T : Type}

theorem cacheLookup_filter_ne (c : CacheState) (key k : String) :
    cacheLookup (c.filter (fun e => e.1 != key)) k =
      if k = key then none else cacheLookup c k := by
  by_cases h : k = key
  · subst h
    rw [if_pos rfl]
    unfold cacheLookup
    have hn : List.find? (fun e => e.1 == k)
        (c.filter (fun e => e.1 != k)) = none := by
      rw [List.find?_eq_none]
      intro x hx
      have hne := (List.mem_filter.mp hx).2
      simp only [bne_iff_ne, ne_eq] at hne
      simp [hne]
    rw [hn]
    rfl
  · rw [if_neg h]
    unfold cacheLookup
    rw [List.find?_filter]
    have hp : (fun (a : String × List Nat × Nat) =>
        decide ((a.1 != key) = true ∧ (a.1 == k) = true)) =
        (fun e => e.1 == k) := by
      funext e
      by_cases he : e.1 = k
      · subst he
        simp [h]
      · simp [he]
    rw [hp]

theorem cacheLookup_cacheSet (c : CacheState) (k : String) (b : List Nat)
    (ttl : Nat) (k2 : String) :
    cacheLookup (cacheSet c k b ttl) k2 =
      if k2 = k then some (b, ttl) else cacheLookup c k2 := by
  unfold cacheSet
  by_cases h : k2 = k
  · subst h
    simp [cacheLookup, List.find?_cons]
  · rw [if_neg h]
    have hstep : cacheLookup ((k, b, ttl) :: c.filter (fun e => e.1 != k)) k2 =
        cacheLookup (c.filter (fun e => e.1 != k)) k2 := by
      unfold cacheLookup
      rw [List.find?_cons_of_neg]
      simp only [beq_iff_eq]
      exact fun he => h he.symm
    rw [hstep, cacheLookup_filter_ne, if_neg h]

theorem dbFetchById_append_self (P : PersistSpec T) (db : List T) (v : T)
    (h : dbFetchById P db (P.collection_id v) = none) :
    dbFetchById P (db ++ [v]) (P.collection_id v) = some v := by
  unfold dbFetchById at *
  rw [List.find?_append, h]
  simp [List.find?_cons]

theorem find?_removeFirst_of_countP_le_one (p : T → Bool) (l : List T)
    (h : l.countP p ≤ 1) : (removeFirst p l).find? p = none := by
  induction l with
  | nil => rfl
  | cons x xs ih =>
    by_cases hx : p x
    · have hz : xs.countP p = 0 := by
        have := h
        rw [List.countP_cons, if_pos hx] at this
        omega
      rw [List.countP_eq_zero] at hz
      simp only [removeFirst, if_pos hx]
      rw [List.find?_eq_none]
      exact hz
    · have hle : xs.countP p ≤ 1 := by
        have := h
        rw [List.countP_cons, if_neg hx] at this
        omega
      simp only [removeFirst, if_neg hx]
      rw [List.find?_cons]
      simp [hx, ih hle]

theorem cacheKey_inj (C : CacheSpec T) (a b : String)
    (h : cacheKey C a = cacheKey C b) : a = b := by
  unfold cacheKey at h
  have hd : (C.cache_path ++ ":" ++ a).data = (C.cache_path ++ ":" ++ b).data := by
    rw [h]
  rw [String.data_append, String.data_append, String.data_append,
    String.data_append, List.append_assoc, List.append_assoc] at hd
  have h1 := List.append_cancel_left hd
  have h2 := List.append_cancel_left h1
  exact String.ext h2

end Lemmas

/-! Concrete demonstration record type, mirroring the kind of struct the
derive macros target (see `derive_test/src/lib.rs`): a record with an id
field and a name field. -/

structure DemoRec where
  id : String
  name : String
deriving DecidableEq, Repr

/-- `Persistable` instance for `DemoRec` as the derive macro would emit it:
collection name constant, id field `"id"`, id extraction from that field. -/
def demoPersist : PersistSpec DemoRec :=
  { collection_name := "demos"
    collection_id_field := "id"
    collection_id := fun r => r.id }

/-- `Cacheable` instance for `DemoRec` with the default expiry 3600 and the
cache id taken from the id field. -/
def demoCache : CacheSpec DemoRec :=
  { cache_path := "demo"
    cache_id := fun r => r.id
    cache_expiry := 3600 }

/-- `Cacheable` instance whose cache id is the name field, a type for which
`cache_id` differs from `collection_id` (the derive macros allow an
arbitrary `id_func`). -/
def demoCacheByName : CacheSpec DemoRec :=
  { cache_path := "demo"
    cache_id := fun r => r.name
    cache_expiry := 3600 }

/-- Byte encoding of a string for the demo serde contract. -/
def strBytes (s : String) : List Nat :=
  s.data.map Char.toNat

/-- Inverse of `strBytes`. -/
def strOfBytes (l : List Nat) : String :=
  String.mk (l.map Char.ofNat)

/-- A concrete executable serde contract for `DemoRec`: the two string
fields separated by a 0 byte; deserialization fails on bytes without a
separator. -/
def demoSerde : SerdeSpec DemoRec :=
  { ser := fun r => strBytes r.id ++ 0 :: strBytes r.name
    de := fun b =>
      match b.dropWhile (fun n => n != 0) with
      | 0 :: rest =>
          Except.ok ⟨strOfBytes (b.takeWhile (fun n => n != 0)), strOfBytes rest⟩
      | _ => Except.error ⟨"missing separator"⟩ }

/-- Single-field set for `DemoRec`, modelling the mongo `$set` on one named
field for this type. -/
def demoSetField (r : DemoRec) (key : String) (v : String) : DemoRec :=
  if key == "name" then { r with name := v }
  else if key == "id" then { r with id := v }
  else r

/-! Claim theorems. -/

/-- C4: if a record with the same id already exists in the collection,
`add` fails with `IdExists` and performs no insert, leaving the stored
collection unchanged; otherwise it checks for an existing record, inserts
the value, and returns it unchanged. -/
theorem db_add_id_exists {T : Type} (P : PersistSpec T) (db : List T)
    (v : T) :
    (∀ w, dbFetchById P db (P.collection_id v) = some w →
      dbAdd P db v =
        (Except.error (DaoError.IdExists (P.collection_id v)), db))
    ∧ (dbFetchById P db (P.collection_id v) = none →
      dbAdd P db v = (Except.ok v, db ++ [v])) := by
  constructor
  · intro w h
    unfold dbAdd
    rw [h]
  · intro h
    unfold dbAdd
    rw [h]

/-- Witness for C4 at concrete inputs: a second add with id `"a"` fails
with `IdExists "a"` and leaves the collection as after the first add; an
add on a fresh collection inserts and returns the value unchanged. -/
theorem db_add_id_exists_witness :
    dbAdd demoPersist [⟨"a", "x"⟩] (⟨"a", "y"⟩ : DemoRec) =
      (Except.error (DaoError.IdExists "a"), [⟨"a", "x"⟩])
    ∧ dbAdd demoPersist [] (⟨"a", "x"⟩ : DemoRec) =
      (Except.ok ⟨"a", "x"⟩, [⟨"a", "x"⟩]) :=
  ⟨(db_add_id_exists demoPersist [⟨"a", "x"⟩] ⟨"a", "y"⟩).1 ⟨"a", "x"⟩
      (by decide),
    (db_add_id_exists demoPersist [] ⟨"a", "x"⟩).2 (by decide)⟩

/-- C3: `add_cached` performs the store add first and writes to the cache
only if the store add succeeds; if the store add fails, the error is
returned and the whole external state, the cache included, is unchanged. -/
theorem add_cached_store_first {T : Type} (P : PersistSpec T)
    (C : CacheSpec T) (S : SerdeSpec T) (s : St T) (v : T) :
    (∀ e, (dbAdd P s.db v).1 = Except.error e →
      addCached P C S s v = (Except.error e, s))
    ∧ (∀ r, (dbAdd P s.db v).1 = Except.ok r →
      addCached P C S s v =
        (Except.ok r, ⟨(dbAdd P s.db v).2, cachePut C S s.cache r⟩)) := by
  unfold addCached dbAdd
  cases hf : dbFetchById P s.db (P.collection_id v) with
  | some w =>
    constructor
    · intro e he
      simp only [hf] at he ⊢
      cases he
      rfl
    · intro r hr
      simp only [hf] at hr
      cases hr
  | none =>
    constructor
    · intro e he
      simp only [hf] at he
      cases he
    · intro r hr
      simp only [hf] at hr ⊢
      cases hr
      rfl

/-- Witness for C3 at concrete inputs: adding a duplicate id through
`add_cached` returns the store error and leaves the store and cache
exactly as before; adding a fresh record stores it and then caches it. -/
theorem add_cached_store_first_witness :
    addCached demoPersist demoCache demoSerde
        ⟨[⟨"a", "x"⟩], []⟩ (⟨"a", "y"⟩ : DemoRec) =
      (Except.error (DaoError.IdExists "a"), ⟨[⟨"a", "x"⟩], []⟩)
    ∧ addCached demoPersist demoCache demoSerde ⟨[], []⟩
        (⟨"a", "x"⟩ : DemoRec) =
      (Except.ok ⟨"a", "x"⟩,
        ⟨[⟨"a", "x"⟩],
          cachePut demoCache demoSerde [] ⟨"a", "x"⟩⟩) :=
  ⟨(add_cached_store_first demoPersist demoCache demoSerde
      ⟨[⟨"a", "x"⟩], []⟩ ⟨"a", "y"⟩).1 (DaoError.IdExists "a") (by decide),
    (add_cached_store_first demoPersist demoCache demoSerde
      ⟨[], []⟩ ⟨"a", "x"⟩).2 ⟨"a", "x"⟩ (by decide)⟩

/-- C8: the cache adapter's fetch maps the `Nil` sentinel to an empty
result (not an error), deserializes a `Data` payload (a deserialization
failure is collapsed into `GeneralError`, losing the underlying cause:
the conversion is constant), and fails with `GeneralError` on any other
response shape. -/
theorem cache_fetch_response_shapes {T : Type} (S : SerdeSpec T)
    (b : List Nat) :
    cacheFetchRaw S RedisValue.nil =
      (Except.ok none : Except DaoError (Option T))
    ∧ (∀ t, S.de b = Except.ok t →
        cacheFetchRaw S (RedisValue.data b) = Except.ok (some t))
    ∧ (∀ e, S.de b = Except.error e →
        cacheFetchRaw S (RedisValue.data b) =
          Except.error DaoError.GeneralError)
    ∧ cacheFetchRaw S RedisValue.other =
        (Except.error DaoError.GeneralError : Except DaoError (Option T))
    ∧ (∀ e1 e2 : SerdeJsonError, daoFromSerde e1 = daoFromSerde e2) := by
  refine ⟨rfl, ?_, ?_, rfl, fun e1 e2 => rfl⟩
  · intro t h
    simp only [cacheFetchRaw]
    rw [h]
  · intro e h
    simp only [cacheFetchRaw]
    rw [h]
    rfl

/-- Witness for C8 at concrete inputs: well-formed bytes deserialize to
the record; malformed bytes (no separator) produce `GeneralError`. -/
theorem cache_fetch_response_shapes_witness :
    cacheFetchRaw demoSerde
        (RedisValue.data (demoSerde.ser ⟨"a", "x"⟩)) =
      Except.ok (some (⟨"a", "x"⟩ : DemoRec))
    ∧ cacheFetchRaw demoSerde (RedisValue.data [1]) =
      (Except.error DaoError.GeneralError : Except DaoError (Option DemoRec)) :=
  ⟨(cache_fetch_response_shapes demoSerde
      (demoSerde.ser ⟨"a", "x"⟩)).2.1 ⟨"a", "x"⟩ (by decide),
    (cache_fetch_response_shapes demoSerde [1]).2.2.1
      ⟨"missing separator"⟩ (by decide)⟩

/-- C9: `put` writes the serialized record under the key formed by
concatenating the namespace, a colon and the record's cache id with no
escaping, and a subsequent cache fetch with that cache id returns an equal
record, given that the type's serde contract round-trips. -/
theorem cache_put_key_and_roundtrip {T : Type} (C : CacheSpec T)
    (S : SerdeSpec T) (c : CacheState) (r : T)
    (h : S.de (S.ser r) = Except.ok r) :
    cachePut C S c r =
      cacheSet c (C.cache_path ++ ":" ++ C.cache_id r) (S.ser r)
        C.cache_expiry
    ∧ cacheFetch C S (cachePut C S c r) (C.cache_id r) =
      Except.ok (some r) := by
  constructor
  · rfl
  · have hl : cacheLookup (cachePut C S c r) (cacheKey C (C.cache_id r)) =
        some (S.ser r, C.cache_expiry) := by
      unfold cachePut
      rw [cacheLookup_cacheSet, if_pos rfl]
    unfold cacheFetch cacheResponse
    rw [hl]
    show cacheFetchRaw S (RedisValue.data (S.ser r)) = Except.ok (some r)
    simp only [cacheFetchRaw]
    rw [h]

/-- Witness for C9 at a concrete input: putting the record `{id := "a",
name := "x"}` into an empty cache and fetching it back by its cache id
returns an equal record. -/
theorem cache_put_key_and_roundtrip_witness :
    cachePut demoCache demoSerde [] (⟨"a", "x"⟩ : DemoRec) =
      cacheSet [] ("demo" ++ ":" ++ "a")
        (demoSerde.ser ⟨"a", "x"⟩) 3600
    ∧ cacheFetch demoCache demoSerde
        (cachePut demoCache demoSerde [] ⟨"a", "x"⟩) "a" =
      Except.ok (some (⟨"a", "x"⟩ : DemoRec)) :=
  cache_put_key_and_roundtrip demoCache demoSerde [] ⟨"a", "x"⟩ (by decide)

/-- C2: `fetch_by_id_cached` queries the cache first; on a hit it returns
the cached value without consulting the store (the result and post-state
are the same for every store content); on a miss it reads the store by id
and, when the record exists, writes it into the cache before returning it;
when neither has it, it returns empty. -/
theorem fetch_by_id_cached_spec {T : Type} (P : PersistSpec T)
    (C : CacheSpec T) (S : SerdeSpec T) (s : St T) (id : String) :
    (∀ t, cacheFetch C S s.cache id = Except.ok (some t) →
      ∀ db, fetchByIdCached P C S ⟨db, s.cache⟩ id =
        (Except.ok (some t), ⟨db, s.cache⟩))
    ∧ (cacheFetch C S s.cache id = Except.ok none →
        (∀ t, dbFetchById P s.db id = some t →
          fetchByIdCached P C S s id =
            (Except.ok (some t), ⟨s.db, cachePut C S s.cache t⟩))
        ∧ (dbFetchById P s.db id = none →
          fetchByIdCached P C S s id = (Except.ok none, s))) := by
  constructor
  · intro t h db
    simp only [fetchByIdCached]
    rw [h]
  · intro h
    constructor
    · intro t ht
      simp only [fetchByIdCached]
      rw [h, ht]
    · intro ht
      simp only [fetchByIdCached]
      rw [h, ht]

/-- Witness for C2 at concrete inputs: a hit is served from the cache with
an empty store and leaves the state unchanged; a miss with the record in
the store returns it and populates the cache; a double miss returns
empty. -/
theorem fetch_by_id_cached_spec_witness :
    fetchByIdCached demoPersist demoCache demoSerde
        ⟨[], cachePut demoCache demoSerde [] ⟨"a", "x"⟩⟩ "a" =
      (Except.ok (some (⟨"a", "x"⟩ : DemoRec)),
        ⟨[], cachePut demoCache demoSerde [] ⟨"a", "x"⟩⟩)
    ∧ fetchByIdCached demoPersist demoCache demoSerde
        ⟨[⟨"a", "x"⟩], []⟩ "a" =
      (Except.ok (some (⟨"a", "x"⟩ : DemoRec)),
        ⟨[⟨"a", "x"⟩], cachePut demoCache demoSerde [] ⟨"a", "x"⟩⟩)
    ∧ fetchByIdCached demoPersist demoCache demoSerde ⟨[], []⟩ "a" =
      (Except.ok none, ⟨[], []⟩) :=
  ⟨(fetch_by_id_cached_spec demoPersist demoCache demoSerde
      ⟨[], cachePut demoCache demoSerde [] ⟨"a", "x"⟩⟩ "a").1
      ⟨"a", "x"⟩ (by decide) [],
    ((fetch_by_id_cached_spec demoPersist demoCache demoSerde
      ⟨[⟨"a", "x"⟩], []⟩ "a").2 (by decide)).1 ⟨"a", "x"⟩ (by decide),
    ((fetch_by_id_cached_spec demoPersist demoCache demoSerde
      ⟨[], []⟩ "a").2 (by decide)).2 (by decide)⟩

/-- C5: `update_cached` performs the store update first; if it yields a
record, the complete re-read record is written to the cache with the ttl
reset to the type's expiry; if the store update yields nothing, the cache
is left entirely untouched and empty is returned. -/
theorem update_cached_spec {T K : Type} (P : PersistSpec T)
    (C : CacheSpec T) (S : SerdeSpec T) (s : St T) (id key : String)
    (value : K) (setF : T → String → K → T) :
    (∀ r, (dbUpdate P s.db id key value setF).1 = some r →
      updateCached P C S s id key value setF =
        (Except.ok (some r),
          ⟨(dbUpdate P s.db id key value setF).2,
            cacheSet s.cache (cacheKey C (C.cache_id r)) (S.ser r)
              C.cache_expiry⟩)
      ∧ dbFetchById P (dbUpdate P s.db id key value setF).2 id = some r)
    ∧ ((dbUpdate P s.db id key value setF).1 = none →
      updateCached P C S s id key value setF =
        (Except.ok none,
          ⟨(dbUpdate P s.db id key value setF).2, s.cache⟩)) := by
  constructor
  · intro r hr
    have hf : dbFetchById P (dbUpdateStore P s.db id key value setF) id =
        some r := hr
    refine ⟨?_, hf⟩
    simp only [updateCached, dbUpdate]
    rw [hf]
    rfl
  · intro h
    have hf : dbFetchById P (dbUpdateStore P s.db id key value setF) id =
        none := h
    simp only [updateCached, dbUpdate]
    rw [hf]

/-- Witness for C5 at concrete inputs: updating the name field of the
record with id `"a"` stores and caches the full updated record with ttl
3600; updating a missing id `"b"` returns empty and leaves the cache (here
holding an unrelated entry) untouched. -/
theorem update_cached_spec_witness :
    updateCached demoPersist demoCache demoSerde
        ⟨[⟨"a", "x"⟩], []⟩ "a" "name" "y" demoSetField =
      (Except.ok (some (⟨"a", "y"⟩ : DemoRec)),
        ⟨[⟨"a", "y"⟩],
          cacheSet [] ("demo" ++ ":" ++ "a")
            (demoSerde.ser ⟨"a", "y"⟩) 3600⟩)
    ∧ updateCached demoPersist demoCache demoSerde
        ⟨[⟨"a", "x"⟩], cachePut demoCache demoSerde [] ⟨"a", "x"⟩⟩
        "b" "name" "y" demoSetField =
      (Except.ok none,
        ⟨[⟨"a", "x"⟩], cachePut demoCache demoSerde [] ⟨"a", "x"⟩⟩) :=
  ⟨((update_cached_spec demoPersist demoCache demoSerde
      ⟨[⟨"a", "x"⟩], []⟩ "a" "name" "y" demoSetField).1
      ⟨"a", "y"⟩ (by decide)).1,
    (update_cached_spec demoPersist demoCache demoSerde
      ⟨[⟨"a", "x"⟩], cachePut demoCache demoSerde [] ⟨"a", "x"⟩⟩
      "b" "name" "y" demoSetField).2 (by decide)⟩

/-- C6: `delete_cached` deletes from the store and then from the cache; it
returns success whether or not a record with the id existed, and
afterwards, provided the store held at most one record with that id (the
data-model uniqueness invariant), the id is present in neither the store
nor the cache. -/
theorem delete_cached_spec {T : Type} (P : PersistSpec T) (C : CacheSpec T)
    (s : St T) (id : String)
    (h : s.db.countP (fun r => P.collection_id r == id) ≤ 1) :
    (deleteCached P C s id).1 = Except.ok ()
    ∧ (deleteCached P C s id).2 =
      (⟨dbDelete P s.db id, cacheDelete C s.cache id⟩ : St T)
    ∧ dbFetchById P ((deleteCached P C s id).2).db id = none
    ∧ cacheLookup ((deleteCached P C s id).2).cache (cacheKey C id) =
      none := by
  refine ⟨rfl, rfl, ?_, ?_⟩
  · exact find?_removeFirst_of_countP_le_one _ _ h
  · have hup := cacheLookup_filter_ne s.cache (cacheKey C id) (cacheKey C id)
    rw [if_pos rfl] at hup
    exact hup

/-- Witness for C6 at a concrete input: deleting id `"a"` from a state
holding that record in the store and in the cache succeeds and removes it
from both; the same call on the resulting state (id already absent) still
succeeds. -/
theorem delete_cached_spec_witness :
    (deleteCached demoPersist demoCache
        ⟨[⟨"a", "x"⟩], cachePut demoCache demoSerde [] ⟨"a", "x"⟩⟩
        "a").1 = Except.ok ()
    ∧ dbFetchById demoPersist
        ((deleteCached demoPersist demoCache
          ⟨[⟨"a", "x"⟩], cachePut demoCache demoSerde [] ⟨"a", "x"⟩⟩
          "a").2).db "a" = none
    ∧ cacheLookup
        ((deleteCached demoPersist demoCache
          ⟨[⟨"a", "x"⟩], cachePut demoCache demoSerde [] ⟨"a", "x"⟩⟩
          "a").2).cache (cacheKey demoCache "a") = none :=
  ⟨(delete_cached_spec demoPersist demoCache
      ⟨[⟨"a", "x"⟩], cachePut demoCache demoSerde [] ⟨"a", "x"⟩⟩
      "a" (by decide)).1,
    (delete_cached_spec demoPersist demoCache
      ⟨[⟨"a", "x"⟩], cachePut demoCache demoSerde [] ⟨"a", "x"⟩⟩
      "a" (by decide)).2.2.1,
    (delete_cached_spec demoPersist demoCache
      ⟨[⟨"a", "x"⟩], cachePut demoCache demoSerde [] ⟨"a", "x"⟩⟩
      "a" (by decide)).2.2.2⟩

/-- C10: the cached read path keys its cache lookup by the caller-supplied
store id while `add_cached` keys its cache entry by the record's cache id:
after an `add_cached` of a record whose cache id differs from the lookup
id, the written entry sits under the cache-id key and the cache probe of a
subsequent `fetch_by_id_cached` with the other id (absent before the call)
still misses, so the entry can be hit only when the cache id equals the
lookup id. -/
theorem cached_key_mismatch {T : Type} (P : PersistSpec T)
    (C : CacheSpec T) (S : SerdeSpec T) (s : St T) (v r : T) (t : St T)
    (id : String) (hadd : addCached P C S s v = (Except.ok r, t))
    (hne : C.cache_id r ≠ id)
    (hmiss : cacheLookup s.cache (cacheKey C id) = none) :
    cacheLookup t.cache (cacheKey C (C.cache_id r)) =
      some (S.ser r, C.cache_expiry)
    ∧ cacheFetch C S t.cache id = Except.ok none := by
  have hPair : r = v ∧ t = (⟨s.db ++ [v], cachePut C S s.cache v⟩ : St T) := by
    unfold addCached dbAdd at hadd
    cases hf : dbFetchById P s.db (P.collection_id v) with
    | some w =>
      rw [hf] at hadd
      simp [Prod.mk.injEq] at hadd
    | none =>
      rw [hf] at hadd
      have h1 := congrArg Prod.fst hadd
      have h2 := congrArg Prod.snd hadd
      injection h1 with hv
      exact ⟨hv.symm, h2.symm⟩
  obtain ⟨hrv, hts⟩ := hPair
  subst hrv
  subst hts
  constructor
  · show cacheLookup (cachePut C S s.cache r) (cacheKey C (C.cache_id r)) = _
    unfold cachePut
    rw [cacheLookup_cacheSet, if_pos rfl]
  · have hk : ¬ (cacheKey C id = cacheKey C (C.cache_id r)) :=
      fun he => hne (cacheKey_inj C _ _ he.symm)
    have hl : cacheLookup (cachePut C S s.cache r) (cacheKey C id) = none := by
      unfold cachePut
      rw [cacheLookup_cacheSet, if_neg hk]
      exact hmiss
    show cacheFetch C S (cachePut C S s.cache r) id = Except.ok none
    unfold cacheFetch cacheResponse
    rw [hl]
    rfl

/-- Witness for C10 at a concrete input: `DemoRec` cached by its name
field; after `add_cached {id := "a", name := "x"}` on an empty state the
cache holds the entry under key `"demo:x"` and the cache probe for the
collection id `"a"` still misses. -/
theorem cached_key_mismatch_witness :
    cacheLookup
        ((addCached demoPersist demoCacheByName demoSerde ⟨[], []⟩
          ⟨"a", "x"⟩).2).cache ("demo" ++ ":" ++ "x") =
      some (demoSerde.ser ⟨"a", "x"⟩, 3600)
    ∧ cacheFetch demoCacheByName demoSerde
        ((addCached demoPersist demoCacheByName demoSerde ⟨[], []⟩
          ⟨"a", "x"⟩).2).cache "a" =
      Except.ok none :=
  cached_key_mismatch demoPersist demoCacheByName demoSerde ⟨[], []⟩
    ⟨"a", "x"⟩ ⟨"a", "x"⟩
    ((addCached demoPersist demoCacheByName demoSerde ⟨[], []⟩
      ⟨"a", "x"⟩).2) "a" (by decide) (by decide) (by decide)

/-! BSON-level embedding of the filtered `DB::fetch`, needed because its
filter is built from the JSON text of the value rather than from its BSON
encoding. -/

/-- Minimal BSON value universe: strings and integers. -/
inductive BVal where
  | bstr (s : String)
  | bint (n : Int)
deriving DecidableEq, Repr

/-- A BSON document: an association list of field names to values. -/
abbrev BDoc := List (String × BVal)

/-- Field access in a BSON document. -/
def docLookup (d : BDoc) (k : String) : Option BVal :=
  (d.find? (fun e => e.1 == k)).map (fun e => e.2)

/-- Mongo equality matching of a document against a filter document:
every filter field must be present with an equal value. -/
def docMatches (filter : BDoc) (d : BDoc) : Bool :=
  filter.all (fun e => docLookup d e.1 == some e.2)

/-- The `find(filter)` call in `DB::fetch` (`src/db/mongo_db.rs` lines
83-96) at BSON level: collect the matching documents of the collection.
`DB::fetch` wraps an empty result as `Ok(None)` and
`DataServices::fetch` (`src/data_services.rs` lines 74-83) turns that
into the empty vector, so the returned sequence is exactly this list. -/
def dbFetchFilter (coll : List BDoc) (filter : BDoc) : List BDoc :=
  coll.filter (docMatches filter)

/-- Models `serde_json::to_string` applied to a string value: the value
wrapped in JSON quotes (escaping elided; exact for values containing no
character that needs escaping). -/
def jsonStringOfString (v : String) : String :=
  "\"" ++ v ++ "\""

/-- The code path of `DB::fetch` (`src/db/mongo_db.rs` lines 77-81) for a
present string-valued filter pair: the filter document is
`{k: serde_json::to_string(&v)}`, and `doc!` stores the produced JSON
text as a BSON string. -/
def dbFetchCodeStr (coll : List BDoc) (k v : String) : List BDoc :=
  dbFetchFilter coll [(k, BVal.bstr (jsonStringOfString v))]

/-- Modelled from the spec for comparison (claim C7's wording): the
sequence of records in the collection whose field `k` equals `v`. -/
def specFetchEq (coll : List BDoc) (k : String) (v : BVal) : List BDoc :=
  coll.filter (fun d => docLookup d k == some v)

/-- C7, code bug: the store fetch with filter `("name", "x")` on a
collection holding the document `{id: "a", name: "x"}` — whose field
`"name"` does equal `"x"` — returns no documents, because the code filters
on equality with the JSON-encoded text of the value (a quoted string)
rather than with the value itself; the claimed single-field equality
filter would return the document. -/
theorem db_fetch_filter_divergence :
    docLookup [("id", BVal.bstr "a"), ("name", BVal.bstr "x")] "name" =
      some (BVal.bstr "x")
    ∧ dbFetchCodeStr [[("id", BVal.bstr "a"), ("name", BVal.bstr "x")]]
        "name" "x" = []
    ∧ specFetchEq [[("id", BVal.bstr "a"), ("name", BVal.bstr "x")]]
        "name" (BVal.bstr "x") =
      [[("id", BVal.bstr "a"), ("name", BVal.bstr "x")]] := by
  decide

/-- C1: across one call of any cached orchestrator operation, every cache
entry of the post-state either already existed before the call or was
written during the call from a record that the persistent store holds in
the post-state under its collection id — the serialized bytes, the ttl and
the key are all derived from that store-backed record, so the layer
creates no cache-only records. -/
theorem cache_entries_backed_by_store {T : Type} (P : PersistSpec T)
    (C : CacheSpec T) (S : SerdeSpec T) {s t : St T}
    (hstep : Step P C S s t) (k : String) (b : List Nat) (ttl : Nat)
    (hpost : cacheLookup t.cache k = some (b, ttl)) :
    cacheLookup s.cache k = some (b, ttl)
    ∨ ∃ r, b = S.ser r ∧ ttl = C.cache_expiry
        ∧ k = cacheKey C (C.cache_id r)
        ∧ dbFetchById P t.db (P.collection_id r) = some r := by
  cases hstep with
  | add s0 v res t0 h =>
    unfold addCached dbAdd at h
    cases hf : dbFetchById P s.db (P.collection_id v) with
    | some w =>
      rw [hf] at h
      have h2 : ({ s with db := s.db } : St T) = t := congrArg Prod.snd h
      left
      rw [← h2] at hpost
      exact hpost
    | none =>
      rw [hf] at h
      have h2 : (⟨s.db ++ [v], cachePut C S s.cache v⟩ : St T) = t :=
        congrArg Prod.snd h
      have hpost2 : cacheLookup (cachePut C S s.cache v) k =
          some (b, ttl) := by
        rw [← h2] at hpost
        exact hpost
      unfold cachePut at hpost2
      rw [cacheLookup_cacheSet] at hpost2
      by_cases hk : k = cacheKey C (C.cache_id v)
      · rw [if_pos hk] at hpost2
        injection hpost2 with hbt
        right
        refine ⟨v, (congrArg Prod.fst hbt).symm,
          (congrArg Prod.snd hbt).symm, hk, ?_⟩
        rw [← h2]
        exact dbFetchById_append_self P s.db v hf
      · rw [if_neg hk] at hpost2
        left
        exact hpost2
  | fetch s0 id res t0 h =>
    simp only [fetchByIdCached] at h
    cases hcf : cacheFetch C S s.cache id with
    | error e =>
      rw [hcf] at h
      have h2 : s = t := congrArg Prod.snd h
      left
      rw [← h2] at hpost
      exact hpost
    | ok o =>
      cases o with
      | some u =>
        rw [hcf] at h
        have h2 : s = t := congrArg Prod.snd h
        left
        rw [← h2] at hpost
        exact hpost
      | none =>
        rw [hcf] at h
        cases hdb : dbFetchById P s.db id with
        | some u =>
          rw [hdb] at h
          have h2 : ({ s with cache := cachePut C S s.cache u } : St T) = t :=
            congrArg Prod.snd h
          have hpost2 : cacheLookup (cachePut C S s.cache u) k =
              some (b, ttl) := by
            rw [← h2] at hpost
            exact hpost
          unfold cachePut at hpost2
          rw [cacheLookup_cacheSet] at hpost2
          by_cases hk : k = cacheKey C (C.cache_id u)
          · rw [if_pos hk] at hpost2
            injection hpost2 with hbt
            right
            refine ⟨u, (congrArg Prod.fst hbt).symm,
              (congrArg Prod.snd hbt).symm, hk, ?_⟩
            have hid : P.collection_id u = id := by
              have hfs := List.find?_some hdb
              simpa using hfs
            rw [← h2]
            show dbFetchById P s.db (P.collection_id u) = some u
            rw [hid]
            exact hdb
          · rw [if_neg hk] at hpost2
            left
            exact hpost2
        | none =>
          rw [hdb] at h
          have h2 : s = t := congrArg Prod.snd h
          left
          rw [← h2] at hpost
          exact hpost
  | update s0 id key value setF res t0 h =>
    simp only [updateCached, dbUpdate] at h
    cases hu : dbFetchById P (dbUpdateStore P s.db id key value setF) id with
    | some u =>
      rw [hu] at h
      have h2 : (⟨dbUpdateStore P s.db id key value setF,
          cachePut C S s.cache u⟩ : St T) = t := congrArg Prod.snd h
      have hpost2 : cacheLookup (cachePut C S s.cache u) k =
          some (b, ttl) := by
        rw [← h2] at hpost
        exact hpost
      unfold cachePut at hpost2
      rw [cacheLookup_cacheSet] at hpost2
      by_cases hk : k = cacheKey C (C.cache_id u)
      · rw [if_pos hk] at hpost2
        injection hpost2 with hbt
        right
        refine ⟨u, (congrArg Prod.fst hbt).symm,
          (congrArg Prod.snd hbt).symm, hk, ?_⟩
        have hid : P.collection_id u = id := by
          have hfs := List.find?_some hu
          simpa using hfs
        rw [← h2]
        show dbFetchById P (dbUpdateStore P s.db id key value setF)
          (P.collection_id u) = some u
        rw [hid]
        exact hu
      · rw [if_neg hk] at hpost2
        left
        exact hpost2
    | none =>
      rw [hu] at h
      have h2 : ({ s with db := dbUpdateStore P s.db id key value setF } :
          St T) = t := congrArg Prod.snd h
      left
      rw [← h2] at hpost
      exact hpost
  | delete s0 id res t0 h =>
    have h2 : (⟨dbDelete P s.db id, cacheDelete C s.cache id⟩ : St T) = t :=
      congrArg Prod.snd h
    left
    have hpost2 : cacheLookup (cacheDelete C s.cache id) k =
        some (b, ttl) := by
      rw [← h2] at hpost
      exact hpost
    unfold cacheDelete at hpost2
    rw [cacheLookup_filter_ne] at hpost2
    by_cases hk : k = cacheKey C id
    · rw [if_pos hk] at hpost2
      cases hpost2
    · rw [if_neg hk] at hpost2
      exact hpost2

/-- Witness for C1 at a concrete step: after `add_cached {id := "a",
name := "x"}` on the empty state, the entry under key `"demo:a"` is
accounted for — here by the right disjunct, a record the post-state store
holds. -/
theorem cache_entries_backed_by_store_witness :
    cacheLookup ([] : CacheState) ("demo" ++ ":" ++ "a") =
      some (demoSerde.ser ⟨"a", "x"⟩, 3600)
    ∨ ∃ r : DemoRec, demoSerde.ser ⟨"a", "x"⟩ = demoSerde.ser r
        ∧ 3600 = demoCache.cache_expiry
        ∧ ("demo" ++ ":" ++ "a") = cacheKey demoCache (demoCache.cache_id r)
        ∧ dbFetchById demoPersist
            ((addCached demoPersist demoCache demoSerde ⟨[], []⟩
              ⟨"a", "x"⟩).2).db (demoPersist.collection_id r) = some r :=
  cache_entries_backed_by_store demoPersist demoCache demoSerde
    (Step.add ⟨[], []⟩ ⟨"a", "x"⟩
      (addCached demoPersist demoCache demoSerde ⟨[], []⟩ ⟨"a", "x"⟩).1
      (addCached demoPersist demoCache demoSerde ⟨[], []⟩ ⟨"a", "x"⟩).2 rfl)
    ("demo" ++ ":" ++ "a") (demoSerde.ser ⟨"a", "x"⟩) 3600 (by decide)
